import Mathlib

/-!
Verification of the CORD-19 metadata analysis repository
(`utils.py`, `app.py`, `download_metadata.py`).

The repository works on a single in-memory pandas table.  We embed a row of
the raw `metadata.csv` table as a `RawRow` (the columns the code touches by
name, plus an opaque list `other` for every remaining column), dates as a
`Date` record, and the external date parser `pd.to_datetime` as a function
parameter `parse : String → Option Date` (with `none` playing the role of
`NaT`, the result of `errors="coerce"` on an unparseable string).
-/

/-- A calendar date as produced by the external date parser. -/
structure Date where
  year : Int
  month : Nat
  day : Nat
deriving DecidableEq, Repr

/-- One row of the raw `metadata.csv` table.  `none` models a missing (NaN)
cell.  `other` holds the cells of all columns the cleaning code never touches
by name. -/
structure RawRow where
  title : Option String
  publish_time : Option String
  abstract : Option String
  journal : Option String
  source_x : Option String
  other : List (Option String)
deriving DecidableEq, Repr

/-- A row after `pd.to_datetime(df['publish_time'], errors='coerce')`:
the `publish_time` column now holds a parsed date or `NaT` (`none`). -/
structure ParsedRow where
  title : Option String
  publish_time : Option Date
  abstract : Option String
  journal : Option String
  source_x : Option String
  other : List (Option String)
deriving DecidableEq, Repr

/-- A fully cleaned row: the columns of `ParsedRow` plus the two derived
columns `year` and `abstract_word_count` added by `load_and_clean_data`. -/
structure CleanRow where
  title : Option String
  publish_time : Option Date
  abstract : Option String
  journal : Option String
  source_x : Option String
  other : List (Option String)
  year : Int
  abstract_word_count : Nat
deriving DecidableEq, Repr

/-- Number of maximal runs of non-whitespace characters, scanning left to
right; `inWord` records whether the previous character was part of a word. -/
def tokenCount : List Char → Bool → Nat
  | [], _ => 0
  | c :: cs, inWord =>
    if c.isWhitespace then tokenCount cs false
    else (if inWord then 0 else 1) + tokenCount cs true

/-- Model of Python `len(x.split())`: the number of whitespace-delimited
tokens of `s` (splitting on runs of whitespace, ignoring leading and
trailing whitespace). -/
def wordCount (s : String) : Nat := tokenCount s.data false

/-- `df.dropna(subset=['title', 'publish_time'])` in `load_and_clean_data`
(src/utils.py): keep the rows whose `title` and `publish_time` are both
non-null. -/
def dropna_title_pt (rows : List RawRow) : List RawRow :=
  rows.filter (fun r => r.title.isSome && r.publish_time.isSome)

/-- The diagnostic printed by `load_and_clean_data`:
`Dropped {original_size - len(df)} rows with missing title or publish_time`,
computed right after the first `dropna`. -/
def dropped_reported (rows : List RawRow) : Nat :=
  rows.length - (dropna_title_pt rows).length

/-- `df['publish_time'] = pd.to_datetime(df['publish_time'], errors='coerce')`:
every cell of the `publish_time` column is parsed; a null cell stays null and
a parse failure becomes null (`NaT`) instead of raising. -/
def to_datetime_coerce (parse : String → Option Date) (rows : List RawRow) :
    List ParsedRow :=
  rows.map (fun r =>
    { title := r.title, publish_time := r.publish_time.bind parse,
      abstract := r.abstract, journal := r.journal, source_x := r.source_x,
      other := r.other })

/-- `df = df.dropna(subset=['publish_time'])`, the second drop pass: keep the
rows whose parsed `publish_time` is not `NaT`. -/
def dropna_pt (rows : List ParsedRow) : List ParsedRow :=
  rows.filter (fun r => r.publish_time.isSome)

/-- `df['year'] = df['publish_time'].dt.year` and
`df['abstract_word_count'] = df['abstract'].fillna('').apply(lambda x: len(x.split()))`:
the two derived-column assignments of `load_and_clean_data`.  After
`dropna_pt` every `publish_time` is `some`, so the `getD 0` default is never
used. -/
def assign_year_awc (rows : List ParsedRow) : List CleanRow :=
  rows.map (fun r =>
    { title := r.title, publish_time := r.publish_time,
      abstract := r.abstract, journal := r.journal, source_x := r.source_x,
      other := r.other,
      year := (r.publish_time.map Date.year).getD 0,
      abstract_word_count := wordCount (r.abstract.getD "") })

/-- The cleaning pipeline of `load_and_clean_data` (src/utils.py), after the
file has been read: drop rows with missing title or publish_time, coerce
`publish_time` to dates, drop parse failures, derive `year` and
`abstract_word_count`. -/
def load_and_clean_data (parse : String → Option Date) (rows : List RawRow) :
    List CleanRow :=
  assign_year_awc (dropna_pt (to_datetime_coerce parse (dropna_title_pt rows)))

/-- The action of the whole cleaning pipeline on a single raw row: `none` if
the row is dropped (missing title, missing publish_time, or parse failure),
otherwise the cleaned row. -/
def cleanStep (parse : String → Option Date) (r : RawRow) : Option CleanRow :=
  match r.title, r.publish_time with
  | some _, some s =>
    match parse s with
    | some d =>
      some { title := r.title, publish_time := some d,
             abstract := r.abstract, journal := r.journal,
             source_x := r.source_x, other := r.other,
             year := d.year,
             abstract_word_count := wordCount (r.abstract.getD "") }
    | none => none
  | _, _ => none

theorem clean_eq_filterMap (parse : String → Option Date) (rows : List RawRow) :
    load_and_clean_data parse rows = rows.filterMap (cleanStep parse) := by
  induction rows with
  | nil => rfl
  | cons r rs ih =>
    simp only [load_and_clean_data, dropna_title_pt, to_datetime_coerce,
      dropna_pt, assign_year_awc, List.filter_cons, List.filterMap_cons] at *
    cases ht : r.title with
    | none => simpa [cleanStep, ht] using ih
    | some t =>
      cases hp : r.publish_time with
      | none => simpa [cleanStep, ht, hp] using ih
      | some s =>
        cases hd : parse s with
        | none => simpa [cleanStep, ht, hp, hd] using ih
        | some d => simpa [cleanStep, ht, hp, hd] using ih

/-- The year filter used by every view and by the sample table in `app.py`:
`df[(df['year'] >= year_range[0]) & (df['year'] <= year_range[1])]`. -/
def filter_by_year (rows : List CleanRow) (lo hi : Int) : List CleanRow :=
  rows.filter (fun r => decide (lo ≤ r.year) && decide (r.year ≤ hi))

/-- `int(df['year'].min())` in `main` (src/app.py): the smallest observed
year, `none` on an empty table. -/
def minYear : List CleanRow → Option Int
  | [] => none
  | r :: rs => some ((rs.map (fun x => x.year)).foldl min r.year)

/-- `int(df['year'].max())` in `main` (src/app.py): the largest observed
year, `none` on an empty table. -/
def maxYear : List CleanRow → Option Int
  | [] => none
  | r :: rs => some ((rs.map (fun x => x.year)).foldl max r.year)

/-- The per-value occurrence counts of the non-null values of a column, in
first-encountered order, before sorting: the enumeration underlying pandas
`Series.value_counts()` (whose default `dropna=True` skips null cells). -/
def countPairs (xs : List (Option String)) : List (String × Nat) :=
  let vs := xs.filterMap id
  (vs.foldl (fun acc x => if x ∈ acc then acc else acc ++ [x]) []).map
    (fun k => (k, (vs.filter (fun v => v = k)).length))

/-- Insert a key/count pair into a list sorted by descending count, before
the first element whose count is not larger; with `List.foldr` this yields a
stable descending sort. -/
def insertByCount (p : String × Nat) : List (String × Nat) → List (String × Nat)
  | [] => [p]
  | q :: qs => if q.2 ≤ p.2 then p :: q :: qs else q :: insertByCount p qs

/-- Stable sort by descending count (ties keep their relative order). -/
def sortByCountDesc (l : List (String × Nat)) : List (String × Nat) :=
  l.foldr insertByCount []

/-- Model of pandas `Series.value_counts()` with its defaults: null cells are
skipped (`dropna=True`), distinct values are enumerated in first-encountered
order and sorted by descending count, ties keeping that order. -/
def value_counts (xs : List (Option String)) : List (String × Nat) :=
  sortByCountDesc (countPairs xs)

/-- `plot_top_journals` (src/app.py): filter by the year range, then
`filtered['journal'].value_counts().head(10)`. -/
def plot_top_journals (rows : List CleanRow) (lo hi : Int) :
    List (String × Nat) :=
  (value_counts ((filter_by_year rows lo hi).map (fun r => r.journal))).take 10

/-- `plot_source_distribution` (src/app.py): filter by the year range, then
`filtered['source_x'].value_counts()` (no top-N cap). -/
def plot_source_distribution (rows : List CleanRow) (lo hi : Int) :
    List (String × Nat) :=
  value_counts ((filter_by_year rows lo hi).map (fun r => r.source_x))

/-- A pandas float value: either a number or `NaN`. -/
inductive PFloat where
  | nan : PFloat
  | val : ℚ → PFloat
deriving DecidableEq, Repr

/-- Model of pandas `Series.mean()`: the arithmetic mean of the values, and
`NaN` on an empty series (no explicit guard in the caller). -/
def series_mean (xs : List ℚ) : PFloat :=
  if xs.length = 0 then PFloat.nan else PFloat.val (xs.sum / (xs.length : ℚ))

/-- The second summary statistic of `main` (src/app.py):
`filtered_data['abstract_word_count'].mean()`. -/
def average_abstract_word_count (rows : List CleanRow) : PFloat :=
  series_mean (rows.map (fun r => (r.abstract_word_count : ℚ)))

/-- The working directory: whether `metadata.csv` exists and, if so, the rows
of its table (the external CSV reading/writing is the identity on this
representation). -/
structure FS where
  metadata : Option (List RawRow)
deriving DecidableEq

/-- The remote Kaggle host, seen through the calls `download_metadata_only`
makes: authentication may fail, the download may produce no zip file, or it
yields an archive whose members are named files. -/
inductive Remote where
  | authFail : Remote
  | noZip : Remote
  | zip : List (String × List RawRow) → Remote
deriving DecidableEq

/-- Result of a fetch: the boolean the function returns, the resulting state
of the working directory, and whether the network was contacted (any
download attempt at all). -/
structure FetchOutcome where
  success : Bool
  fs : FS
  network : Bool
deriving DecidableEq

/-- `download_metadata_only` (src/download_metadata.py): return `True` at
once if `metadata.csv` exists; otherwise authenticate, download the archive
to a scratch directory, look for members whose name ends in `metadata.csv`,
and extract the first match to the working directory.  Every failure returns
`False` without writing `metadata.csv`. -/
def download_metadata_only (fs : FS) (remote : Remote) : FetchOutcome :=
  if fs.metadata.isSome then ⟨true, fs, false⟩
  else
    match remote with
    | Remote.authFail => ⟨false, fs, true⟩
    | Remote.noZip => ⟨false, fs, true⟩
    | Remote.zip members =>
      match members.filter (fun m => m.1.endsWith "metadata.csv") with
      | [] => ⟨false, fs, true⟩
      | m :: _ => ⟨true, ⟨some m.2⟩, true⟩

/-- Running `python download_metadata.py` as a subprocess: its `main` calls
`download_metadata_only` and exits 0 whether or not the download succeeded
(only a missing kaggle package exits 1, which we assume installed). -/
def run_download_script (fs : FS) (remote : Remote) : Nat × FS :=
  (0, (download_metadata_only fs remote).fs)

/-- `download_dataset` (src/utils.py): return `True` at once if
`metadata.csv` exists; otherwise run the download script and report success
iff its exit code is 0. -/
def download_dataset (fs : FS) (remote : Remote) : FetchOutcome :=
  if fs.metadata.isSome then ⟨true, fs, false⟩
  else
    let r := run_download_script fs remote
    if r.1 = 0 then ⟨true, r.2, true⟩ else ⟨false, r.2, true⟩

/-- A full run of `load_and_clean_data` including the fetch step: ensure the
dataset is present, then read `metadata.csv` and clean it.  `none` models
both the `return None` branch and a raised exception from
`pd.read_csv` when the file is still absent. -/
def load_and_clean_run (parse : String → Option Date) (fs : FS)
    (remote : Remote) : Option (List CleanRow) × FS :=
  let fr := download_dataset fs remote
  if fr.success then
    match fr.fs.metadata with
    | some rows => (some (load_and_clean_data parse rows), fr.fs)
    | none => (none, fr.fs)
  else (none, fr.fs)

/-- A concrete date parser used to instantiate the external-parser parameter
in witnesses: it recognises the two dates of the spec scenario and rejects
everything else. -/
def demoParse (s : String) : Option Date :=
  if s = "2020-01-15" then some ⟨2020, 1, 15⟩
  else if s = "2019-05-01" then some ⟨2019, 5, 1⟩
  else none

/-- Scenario row A of the spec: `{title:"A", publish_time:"2020-01-15",
abstract:"x y z"}`. -/
def rowA : RawRow :=
  { title := some "A", publish_time := some "2020-01-15",
    abstract := some "x y z", journal := none, source_x := none, other := [] }

/-- Scenario row with a missing title. -/
def rowNoTitle : RawRow :=
  { title := none, publish_time := some "2019-05-01",
    abstract := none, journal := none, source_x := none, other := [] }

/-- Scenario row B of the spec: non-null `publish_time` that fails to
parse. -/
def rowB : RawRow :=
  { title := some "B", publish_time := some "bad-date",
    abstract := none, journal := none, source_x := none, other := [] }

/-- The cleaned form of `rowA`. -/
def cleanA : CleanRow :=
  { title := some "A", publish_time := some ⟨2020, 1, 15⟩,
    abstract := some "x y z", journal := none, source_x := none, other := [],
    year := 2020, abstract_word_count := 3 }

/-- A cleaned row with missing `journal` and `source_x`. -/
def cleanNoJournal : CleanRow :=
  { title := some "C", publish_time := some ⟨2021, 3, 2⟩,
    abstract := none, journal := none, source_x := none, other := [],
    year := 2021, abstract_word_count := 0 }

/-- The spec's cleaning scenario: of the three scenario rows only row A
survives, with `year = 2020` and `abstract_word_count = 3`. -/
theorem clean_scenario :
    load_and_clean_data demoParse [rowA, rowNoTitle, rowB] = [cleanA] := by
  decide

theorem foldl_min_le_init (ys : List Int) (y : Int) : ys.foldl min y ≤ y := by
  induction ys generalizing y with
  | nil => exact le_refl y
  | cons a ys ih =>
    exact le_trans (ih (min y a)) (min_le_left y a)

theorem foldl_min_le_mem (ys : List Int) (y z : Int) (hz : z ∈ ys) :
    ys.foldl min y ≤ z := by
  induction ys generalizing y with
  | nil => cases hz
  | cons a ys ih =>
    rcases List.mem_cons.mp hz with h | h
    · subst h
      exact le_trans (foldl_min_le_init ys (min y z)) (min_le_right y z)
    · exact ih (min y a) h

theorem le_foldl_max_init (ys : List Int) (y : Int) : y ≤ ys.foldl max y := by
  induction ys generalizing y with
  | nil => exact le_refl y
  | cons a ys ih =>
    exact le_trans (le_max_left y a) (ih (max y a))

theorem le_foldl_max_mem (ys : List Int) (y z : Int) (hz : z ∈ ys) :
    z ≤ ys.foldl max y := by
  induction ys generalizing y with
  | nil => cases hz
  | cons a ys ih =>
    rcases List.mem_cons.mp hz with h | h
    · subst h
      exact le_trans (le_max_right y z) (le_foldl_max_init ys (max y z))
    · exact ih (max y a) h

theorem minYear_le (rows : List CleanRow) (m : Int) (hm : minYear rows = some m)
    (r : CleanRow) (hr : r ∈ rows) : m ≤ r.year := by
  cases rows with
  | nil => cases hr
  | cons a rs =>
    simp only [minYear, Option.some.injEq] at hm
    subst hm
    rcases List.mem_cons.mp hr with h | h
    · subst h; exact foldl_min_le_init _ _
    · exact foldl_min_le_mem _ _ _ (List.mem_map.mpr ⟨r, h, rfl⟩)

theorem le_maxYear (rows : List CleanRow) (m : Int) (hm : maxYear rows = some m)
    (r : CleanRow) (hr : r ∈ rows) : r.year ≤ m := by
  cases rows with
  | nil => cases hr
  | cons a rs =>
    simp only [maxYear, Option.some.injEq] at hm
    subst hm
    rcases List.mem_cons.mp hr with h | h
    · subst h; exact le_foldl_max_init _ _
    · exact le_foldl_max_mem _ _ _ (List.mem_map.mpr ⟨r, h, rfl⟩)

theorem mem_insertByCount (p x : String × Nat) (l : List (String × Nat)) :
    x ∈ insertByCount p l ↔ x = p ∨ x ∈ l := by
  induction l with
  | nil => simp [insertByCount]
  | cons q qs ih =>
    by_cases h : q.2 ≤ p.2
    · simp [insertByCount, if_pos h]
    · simp only [insertByCount, if_neg h, List.mem_cons, ih]
      tauto

theorem pairwise_insertByCount (p : String × Nat) (l : List (String × Nat))
    (hl : l.Pairwise (fun a b => b.2 ≤ a.2)) :
    (insertByCount p l).Pairwise (fun a b => b.2 ≤ a.2) := by
  induction l with
  | nil => simp [insertByCount]
  | cons q qs ih =>
    rcases List.pairwise_cons.mp hl with ⟨hq, hqs⟩
    by_cases h : q.2 ≤ p.2
    · have hins : insertByCount p (q :: qs) = p :: q :: qs := by
        simp [insertByCount, h]
      rw [hins]
      refine List.pairwise_cons.mpr ⟨?_, hl⟩
      intro b hb
      rcases List.mem_cons.mp hb with hb | hb
      · subst hb; exact h
      · exact le_trans (hq b hb) h
    · have hins : insertByCount p (q :: qs) = q :: insertByCount p qs := by
        simp [insertByCount, h]
      rw [hins]
      refine List.pairwise_cons.mpr ⟨?_, ih hqs⟩
      intro b hb
      rcases (mem_insertByCount p b qs).mp hb with hb | hb
      · subst hb; exact le_of_lt (lt_of_not_le h)
      · exact hq b hb

theorem pairwise_sortByCountDesc (l : List (String × Nat)) :
    (sortByCountDesc l).Pairwise (fun a b => b.2 ≤ a.2) := by
  induction l with
  | nil => simp [sortByCountDesc]
  | cons p ps ih =>
    exact pairwise_insertByCount p (sortByCountDesc ps) ih

theorem filter_insertByCount (p : String × Nat) (l : List (String × Nat))
    (c : Nat) :
    (insertByCount p l).filter (fun q => q.2 = c) =
      (if p.2 = c then [p] else []) ++ l.filter (fun q => q.2 = c) := by
  induction l with
  | nil =>
    by_cases h : p.2 = c <;> simp [insertByCount, List.filter, h]
  | cons q qs ih =>
    by_cases h : q.2 ≤ p.2
    · have hins : insertByCount p (q :: qs) = p :: q :: qs := by
        simp [insertByCount, h]
      rw [hins]
      by_cases hp : p.2 = c <;> simp [List.filter_cons, hp]
    · have hins : insertByCount p (q :: qs) = q :: insertByCount p qs := by
        simp [insertByCount, h]
      rw [hins]
      by_cases hp : p.2 = c
      · have hqc : ¬ q.2 = c := fun hqc => h (le_of_eq (hqc.trans hp.symm))
        simp [List.filter_cons, hp, hqc, ih]
      · by_cases hqc : q.2 = c <;> simp [List.filter_cons, hp, hqc, ih]

theorem filter_sortByCountDesc (l : List (String × Nat)) (c : Nat) :
    (sortByCountDesc l).filter (fun q => q.2 = c) =
      l.filter (fun q => q.2 = c) := by
  induction l with
  | nil => rfl
  | cons p ps ih =>
    have h1 : sortByCountDesc (p :: ps) = insertByCount p (sortByCountDesc ps) :=
      rfl
    rw [h1, filter_insertByCount, ih]
    by_cases hp : p.2 = c <;> simp [List.filter_cons, hp]

theorem mem_sortByCountDesc (l : List (String × Nat)) (x : String × Nat) :
    x ∈ sortByCountDesc l ↔ x ∈ l := by
  induction l with
  | nil => simp [sortByCountDesc]
  | cons p ps ih =>
    simp only [sortByCountDesc, List.foldr_cons, List.mem_cons]
    rw [mem_insertByCount]
    simp only [sortByCountDesc] at ih
    rw [ih]

theorem tokenCount_all_ws (cs : List Char) (h : ∀ c ∈ cs, c.isWhitespace) :
    tokenCount cs false = 0 := by
  induction cs with
  | nil => rfl
  | cons c cs ih =>
    have hc : c.isWhitespace := h c (List.mem_cons_self c cs)
    simp only [tokenCount, if_pos hc]
    exact ih (fun x hx => h x (List.mem_cons_of_mem c hx))

/-- What `cleanStep` guarantees when it retains a row: the raw row had a
non-null title and a parseable non-null `publish_time`, every other column is
carried over unchanged, and the two derived columns have their defining
values. -/
theorem cleanStep_some_spec (parse : String → Option Date) (raw : RawRow)
    (c : CleanRow) (h : cleanStep parse raw = some c) :
    ∃ s d, raw.title.isSome ∧ raw.publish_time = some s ∧ parse s = some d ∧
      c.title = raw.title ∧ c.publish_time = some d ∧
      c.abstract = raw.abstract ∧ c.journal = raw.journal ∧
      c.source_x = raw.source_x ∧ c.other = raw.other ∧
      c.year = d.year ∧
      c.abstract_word_count = wordCount (raw.abstract.getD "") := by
  cases ht : raw.title with
  | none => simp [cleanStep, ht] at h
  | some t =>
    cases hp : raw.publish_time with
    | none => simp [cleanStep, ht, hp] at h
    | some s =>
      cases hd : parse s with
      | none => simp [cleanStep, ht, hp, hd] at h
      | some d =>
        simp only [cleanStep, ht, hp, hd, Option.some.injEq] at h
        subst h
        exact ⟨s, d, by simp [ht], rfl, hd, by simp [ht], rfl, rfl, rfl, rfl,
          rfl, rfl, rfl⟩

theorem mem_foldl_dedup_aux (l : List String) (acc : List String) (x : String)
    (h : x ∈ l.foldl (fun acc y => if y ∈ acc then acc else acc ++ [y]) acc) :
    x ∈ acc ∨ x ∈ l := by
  induction l generalizing acc with
  | nil => exact Or.inl h
  | cons y l ih =>
    rw [List.foldl_cons] at h
    rcases ih _ h with h1 | h1
    · by_cases hy : y ∈ acc
      · rw [if_pos hy] at h1
        exact Or.inl h1
      · rw [if_neg hy] at h1
        rcases List.mem_append.mp h1 with h2 | h2
        · exact Or.inl h2
        · exact Or.inr (List.mem_cons.mpr (Or.inl (List.mem_singleton.mp h2)))
    · exact Or.inr (List.mem_cons_of_mem y h1)

theorem mem_foldl_dedup (l : List String) (x : String)
    (hx : x ∈ l.foldl (fun acc y => if y ∈ acc then acc else acc ++ [y]) []) :
    x ∈ l := by
  rcases mem_foldl_dedup_aux l [] x hx with h | h
  · cases h
  · exact h

/-- C1: every row retained by `load_and_clean_data` has a non-null `title`
and a `publish_time` that parsed to a valid calendar date, and its derived
`year` equals the calendar year of that parsed date. -/
theorem C1_retained_rows_titled_dated (parse : String → Option Date)
    (rows : List RawRow) (r : CleanRow)
    (hr : r ∈ load_and_clean_data parse rows) :
    r.title.isSome ∧
    ∃ d : Date, r.publish_time = some d ∧ r.year = d.year ∧
      ∃ raw ∈ rows, ∃ s : String, raw.publish_time = some s ∧
        parse s = some d := by
  rw [clean_eq_filterMap] at hr
  rcases List.mem_filterMap.mp hr with ⟨raw, hraw, hstep⟩
  rcases cleanStep_some_spec parse raw r hstep with
    ⟨s, d, htitle, hpt, hparse, hct, hcp, -, -, -, -, hyear, -⟩
  refine ⟨?_, d, hcp, hyear, raw, hraw, s, hpt, hparse⟩
  rw [hct]
  exact htitle

/-- Witness for C1 at the spec's scenario table. -/
theorem C1_witness :
    cleanA.title.isSome ∧
    ∃ d : Date, cleanA.publish_time = some d ∧ cleanA.year = d.year ∧
      ∃ raw ∈ [rowA, rowNoTitle, rowB], ∃ s : String,
        raw.publish_time = some s ∧ demoParse s = some d :=
  C1_retained_rows_titled_dated demoParse [rowA, rowNoTitle, rowB] cleanA
    (by decide)

/-- C2 counterexample: for a one-row table whose non-null `publish_time`
fails to parse, the reported dropped count is 0 while raw minus cleaned row
count is 1, so the diagnostic does not cover both drop passes. -/
theorem C2_counterexample :
    dropped_reported [rowB] = 0 ∧
    [rowB].length - (load_and_clean_data demoParse [rowB]).length = 1 ∧
    dropped_reported [rowB] ≠
      [rowB].length - (load_and_clean_data demoParse [rowB]).length := by
  decide

/-- C2 amended: the Cleaner performs two distinct drop passes, the second
dropping exactly the rows whose non-null `publish_time` fails to parse
(coerced to missing, never raising); the reported dropped count covers only
the first pass, and the total dropped equals that report plus the
second-pass drops. -/
theorem C2_two_pass_accounting (parse : String → Option Date)
    (rows : List RawRow) :
    dropped_reported rows = rows.length - (dropna_title_pt rows).length ∧
    rows.length - (load_and_clean_data parse rows).length =
      dropped_reported rows +
        ((dropna_title_pt rows).length -
          (load_and_clean_data parse rows).length) ∧
    (load_and_clean_data parse rows).length =
      ((dropna_title_pt rows).filter
        (fun r => (r.publish_time.bind parse).isSome)).length := by
  have hlen : (load_and_clean_data parse rows).length =
      ((dropna_title_pt rows).filter
        (fun r => (r.publish_time.bind parse).isSome)).length := by
    simp only [load_and_clean_data, assign_year_awc, List.length_map,
      dropna_pt, to_datetime_coerce, List.filter_map]
    rfl
  have h1 : (dropna_title_pt rows).length ≤ rows.length :=
    List.length_filter_le _ _
  have h2 : (load_and_clean_data parse rows).length ≤
      (dropna_title_pt rows).length := by
    rw [hlen]
    exact List.length_filter_le _ _
  refine ⟨rfl, ?_, hlen⟩
  unfold dropped_reported
  omega


/-- C3: the year filter keeps exactly the rows within the inclusive bounds
(as a sub-sequence of the table), the degenerate range `y..y` keeps exactly
the rows with `year = y`, and filtering by the full observed year span
returns the table unchanged row-for-row. -/
theorem C3_filter_by_year_spec (rows : List CleanRow) :
    (∀ lo hi r, r ∈ filter_by_year rows lo hi ↔
        r ∈ rows ∧ lo ≤ r.year ∧ r.year ≤ hi) ∧
    (∀ lo hi, List.Sublist (filter_by_year rows lo hi) rows) ∧
    (∀ y r, r ∈ filter_by_year rows y y ↔ r ∈ rows ∧ r.year = y) ∧
    (∀ m M, minYear rows = some m → maxYear rows = some M →
        filter_by_year rows m M = rows) := by
  refine ⟨?_, ?_, ?_, ?_⟩
  · intro lo hi r
    simp [filter_by_year, List.mem_filter]
  · intro lo hi
    exact List.filter_sublist rows
  · intro y r
    simp only [filter_by_year, List.mem_filter, Bool.and_eq_true,
      decide_eq_true_eq]
    constructor
    · rintro ⟨hmem, h1, h2⟩
      exact ⟨hmem, le_antisymm h2 h1⟩
    · rintro ⟨hmem, h⟩
      exact ⟨hmem, le_of_eq h.symm, le_of_eq h⟩
  · intro m M hm hM
    apply List.filter_eq_self.mpr
    intro r hr
    simp only [Bool.and_eq_true, decide_eq_true_eq]
    exact ⟨minYear_le rows m hm r hr, le_maxYear rows M hM r hr⟩

/-- Witness for C3 on a concrete two-row table and its observed span. -/
theorem C3_witness :
    (cleanA ∈ filter_by_year [cleanA, cleanNoJournal] 2019 2022 ↔
      cleanA ∈ [cleanA, cleanNoJournal] ∧ 2019 ≤ cleanA.year ∧
        cleanA.year ≤ 2022) ∧
    filter_by_year [cleanA, cleanNoJournal] 2020 2021 =
      [cleanA, cleanNoJournal] :=
  ⟨(C3_filter_by_year_spec [cleanA, cleanNoJournal]).1 2019 2022 cleanA,
   (C3_filter_by_year_spec [cleanA, cleanNoJournal]).2.2.2 2020 2021
     (by decide) (by decide)⟩

/-- C4: every cleaned row's `abstract_word_count` equals the
whitespace-token count of its abstract, a missing abstract counting as the
empty string and yielding 0 without dropping the row; all-whitespace
abstracts also yield 0, and the count is a defined natural number (≥ 0). -/
theorem C4_abstract_word_count_spec (parse : String → Option Date)
    (rows : List RawRow) :
    (∀ r ∈ load_and_clean_data parse rows,
        r.abstract_word_count = wordCount (r.abstract.getD "") ∧
        (r.abstract = none → r.abstract_word_count = 0) ∧
        0 ≤ r.abstract_word_count) ∧
    (∀ s : String, (∀ c ∈ s.data, c.isWhitespace) → wordCount s = 0) := by
  constructor
  · intro r hr
    rw [clean_eq_filterMap] at hr
    rcases List.mem_filterMap.mp hr with ⟨raw, hraw, hstep⟩
    rcases cleanStep_some_spec parse raw r hstep with
      ⟨s, d, -, -, -, -, -, habs, -, -, -, -, hawc⟩
    refine ⟨by rw [hawc, habs], ?_, Nat.zero_le _⟩
    intro hnone
    rw [hawc, habs.symm, hnone]
    rfl
  · intro s hs
    exact tokenCount_all_ws s.data hs

/-- Witness for C4: the scenario row with abstract `"x y z"` has count 3 and
an all-whitespace string has count 0. -/
theorem C4_witness :
    (cleanA.abstract_word_count = wordCount (cleanA.abstract.getD "") ∧
     (cleanA.abstract = none → cleanA.abstract_word_count = 0) ∧
     0 ≤ cleanA.abstract_word_count) ∧
    wordCount "  \t " = 0 :=
  ⟨(C4_abstract_word_count_spec demoParse [rowA, rowNoTitle, rowB]).1 cleanA
     (by decide),
   (C4_abstract_word_count_spec demoParse []).2 "  \t " (by decide)⟩

/-- C5 counterexample: a cleaned row whose `journal` and `source_x` are
missing yields no bucket at all in the top-journals and source-distribution
views — `value_counts` silently drops null cells, so the missing value does
not appear as its own bucket with its own count. -/
theorem C5_counterexample :
    plot_top_journals [cleanNoJournal] 2021 2021 = [] ∧
    plot_source_distribution [cleanNoJournal] 2021 2021 = [] := by
  decide

/-- C5 amended: rows with missing `journal`/`source_x` pass through cleaning
untouched, and the grouping views neither raise nor count them — null cells
are silently excluded from `value_counts` (every bucket key is a non-null
value occurring in the column, and prepending a null cell leaves the counts
unchanged). -/
theorem C5_missing_values_excluded (parse : String → Option Date)
    (rows : List RawRow) :
    (∀ r ∈ load_and_clean_data parse rows, ∃ raw ∈ rows,
        r.journal = raw.journal ∧ r.source_x = raw.source_x) ∧
    (∀ xs : List (Option String), value_counts (none :: xs) = value_counts xs) ∧
    (∀ xs : List (Option String), ∀ p ∈ value_counts xs, some p.1 ∈ xs) := by
  refine ⟨?_, ?_, ?_⟩
  · intro r hr
    rw [clean_eq_filterMap] at hr
    rcases List.mem_filterMap.mp hr with ⟨raw, hraw, hstep⟩
    rcases cleanStep_some_spec parse raw r hstep with
      ⟨s, d, -, -, -, -, -, -, hj, hsx, -, -, -⟩
    exact ⟨raw, hraw, hj, hsx⟩
  · intro xs
    simp [value_counts, countPairs, List.filterMap_cons]
  · intro xs p hp
    rw [value_counts, mem_sortByCountDesc] at hp
    simp only [countPairs, List.mem_map] at hp
    rcases hp with ⟨k, hk, hpk⟩
    have hkv : k ∈ xs.filterMap id := mem_foldl_dedup _ k hk
    rcases List.mem_filterMap.mp hkv with ⟨o, ho, hok⟩
    cases o with
    | none => cases hok
    | some v =>
      have : v = k := Option.some.inj hok
      subst this
      have : p.1 = v := by rw [← hpk]
      rw [this]
      exact ho

/-- Witness for C5 amended, on the scenario table (row A has no journal and
no source) and a concrete column. -/
theorem C5_witness :
    (∃ raw ∈ [rowA, rowNoTitle, rowB],
        cleanA.journal = raw.journal ∧ cleanA.source_x = raw.source_x) ∧
    some ("J", 1).1 ∈ [some "J"] :=
  ⟨(C5_missing_values_excluded demoParse [rowA, rowNoTitle, rowB]).1 cleanA
     (by decide),
   (C5_missing_values_excluded demoParse []).2.2 [some "J"] ("J", 1)
     (by decide)⟩

/-- C6 counterexample: on an empty filtered subset the mean of
`abstract_word_count` evaluates to `NaN` — not to a guarded "no data"
state. -/
theorem C6_counterexample :
    average_abstract_word_count (filter_by_year [cleanA] 1999 1999) =
      PFloat.nan := by
  decide

/-- C6 amended: the summary-statistics view is a total function (it never
raises), but its mean is the unguarded pandas mean: `NaN` on an empty
subset, and the arithmetic mean `sum / count` otherwise. -/
theorem C6_mean_unguarded (rows : List CleanRow) :
    (rows = [] → average_abstract_word_count rows = PFloat.nan) ∧
    (rows ≠ [] → average_abstract_word_count rows =
      PFloat.val ((rows.map (fun r => (r.abstract_word_count : ℚ))).sum /
        (rows.length : ℚ))) := by
  constructor
  · intro h
    subst h
    rfl
  · intro h
    simp only [average_abstract_word_count, series_mean, List.length_map]
    rw [if_neg (by simpa [List.length_eq_zero] using h)]

/-- Witness for C6 amended at the empty subset and a one-row subset. -/
theorem C6_witness :
    average_abstract_word_count [] = PFloat.nan ∧
    average_abstract_word_count [cleanA] =
      PFloat.val (([cleanA].map (fun r => (r.abstract_word_count : ℚ))).sum /
        (([cleanA] : List CleanRow).length : ℚ)) :=
  ⟨(C6_mean_unguarded []).1 rfl, (C6_mean_unguarded [cleanA]).2 (by decide)⟩

/-- C7: the top-journals view returns at most 10 groups, with counts
non-increasing in output order, and ties broken by first-encountered order:
restricted to any fixed count, the sorted counts list coincides with the
first-encountered-order enumeration `countPairs`. -/
theorem C7_top_journals_spec (rows : List CleanRow) (lo hi : Int) :
    (plot_top_journals rows lo hi).length ≤ 10 ∧
    (plot_top_journals rows lo hi).Pairwise (fun a b => b.2 ≤ a.2) ∧
    ∀ c : Nat,
      (value_counts ((filter_by_year rows lo hi).map
          (fun r => r.journal))).filter (fun p => p.2 = c) =
        (countPairs ((filter_by_year rows lo hi).map
          (fun r => r.journal))).filter (fun p => p.2 = c) := by
  refine ⟨?_, ?_, ?_⟩
  · exact List.length_take_le 10 _
  · exact (pairwise_sortByCountDesc _).sublist (List.take_sublist 10 _)
  · intro c
    exact filter_sortByCountDesc _ c

/-- C8: the Cleaner-plus-Fetcher pipeline is deterministic and idempotent:
re-running it on the state the first run left behind yields the very same
table and leaves that state unchanged (the model takes no randomness or
clock input; the only inputs are the working directory, the remote host and
the external date parser). -/
theorem C8_run_twice_identical (parse : String → Option Date) (fs : FS)
    (remote : Remote) :
    load_and_clean_run parse (load_and_clean_run parse fs remote).2 remote =
      load_and_clean_run parse fs remote := by
  cases fs with
  | mk meta =>
    cases meta with
    | some rows =>
      simp [load_and_clean_run, download_dataset]
    | none =>
      cases remote with
      | authFail => rfl
      | noZip => rfl
      | zip members =>
        cases h : members.filter (fun m => m.1.endsWith "metadata.csv") with
        | nil =>
          simp [load_and_clean_run, download_dataset, run_download_script,
            download_metadata_only, h]
        | cons m ms =>
          simp [load_and_clean_run, download_dataset, run_download_script,
            download_metadata_only, h]

/-- C9: when `metadata.csv` already exists, both `download_metadata_only`
and `download_dataset` return success immediately, contact no network, and
leave the working directory exactly as it was. -/
theorem C9_cached_fetch_is_pure (fs : FS) (remote : Remote)
    (h : fs.metadata.isSome) :
    download_metadata_only fs remote = ⟨true, fs, false⟩ ∧
    download_dataset fs remote = ⟨true, fs, false⟩ := by
  constructor
  · simp [download_metadata_only, h]
  · simp [download_dataset, h]

/-- Witness for C9 with a present (empty-table) `metadata.csv`. -/
theorem C9_witness :
    download_metadata_only ⟨some []⟩ Remote.noZip =
      ⟨true, ⟨some []⟩, false⟩ ∧
    download_dataset ⟨some []⟩ Remote.noZip = ⟨true, ⟨some []⟩, false⟩ :=
  C9_cached_fetch_is_pure ⟨some []⟩ Remote.noZip (by decide)

/-- The columns of a raw row other than `publish_time`. -/
def rawView (r : RawRow) :
    Option String × Option String × Option String × Option String ×
      List (Option String) :=
  (r.title, r.abstract, r.journal, r.source_x, r.other)

/-- The columns of a cleaned row other than `publish_time` and the two
derived columns. -/
def cleanView (r : CleanRow) :
    Option String × Option String × Option String × Option String ×
      List (Option String) :=
  (r.title, r.abstract, r.journal, r.source_x, r.other)

/-- C10: the cleaned rows form a subsequence of the raw rows in the same
relative order; in every retained row all columns except `publish_time` are
unchanged, `publish_time` is replaced in place by its parsed date, and the
only new columns are the derived `year` and `abstract_word_count` (the
`CleanRow` schema adds exactly those two fields to the raw ones). -/
theorem C10_cleaning_frame (parse : String → Option Date)
    (rows : List RawRow) :
    List.Sublist ((load_and_clean_data parse rows).map cleanView)
      (rows.map rawView) ∧
    ∀ r ∈ load_and_clean_data parse rows, ∃ raw ∈ rows, ∃ s d,
      raw.publish_time = some s ∧ parse s = some d ∧
      r.publish_time = some d ∧ cleanView r = rawView raw ∧
      r.year = d.year ∧
      r.abstract_word_count = wordCount (raw.abstract.getD "") := by
  constructor
  · rw [clean_eq_filterMap]
    induction rows with
    | nil => simp
    | cons raw rs ih =>
      cases hstep : cleanStep parse raw with
      | none =>
        simp only [List.filterMap_cons, hstep, List.map_cons]
        exact ih.cons (rawView raw)
      | some c =>
        simp only [List.filterMap_cons, hstep, List.map_cons]
        rcases cleanStep_some_spec parse raw c hstep with
          ⟨s, d, -, -, -, hct, -, habs, hj, hsx, hoth, -, -⟩
        have hview : cleanView c = rawView raw := by
          simp [cleanView, rawView, hct, habs, hj, hsx, hoth]
        rw [hview]
        exact ih.cons₂ (rawView raw)
  · intro r hr
    rw [clean_eq_filterMap] at hr
    rcases List.mem_filterMap.mp hr with ⟨raw, hraw, hstep⟩
    rcases cleanStep_some_spec parse raw r hstep with
      ⟨s, d, -, hpt, hparse, hct, hcp, habs, hj, hsx, hoth, hyear, hawc⟩
    refine ⟨raw, hraw, s, d, hpt, hparse, hcp, ?_, hyear, hawc⟩
    simp [cleanView, rawView, hct, habs, hj, hsx, hoth]

/-- Witness for C10 at the spec's scenario table. -/
theorem C10_witness :
    ∃ raw ∈ [rowA, rowNoTitle, rowB], ∃ s d,
      raw.publish_time = some s ∧ demoParse s = some d ∧
      cleanA.publish_time = some d ∧ cleanView cleanA = rawView raw ∧
      cleanA.year = d.year ∧
      cleanA.abstract_word_count = wordCount (raw.abstract.getD "") :=
  (C10_cleaning_frame demoParse [rowA, rowNoTitle, rowB]).2 cleanA (by decide)
